import Mathlib

/-!
Shallow embedding of the eatswithbene restaurant-ordering application.

The embedded code comes from:
- `src/components/OrderForm.tsx` — catalog, price computation, weekend
  order-type policy, submission validation and the insert payload;
- `src/components/DashboardContent.tsx` — date-range resolution,
  analytics aggregation (`calculateAnalytics`), order action buttons and
  the vendor order-action handler.

Modelling conventions:
- JavaScript numbers carrying money are modelled as `ℚ`; pack counts as `ℕ`.
- A calendar timestamp is modelled by the day it falls on, counted in days
  since the Unix epoch (`Int`); the `'EEE'` weekday formatting of the `date-fns`
  collaborator is the function `dayName` below, and `Date.getDay()` is `dowJS`.
- A JavaScript object used as a string-keyed map with insertion-ordered keys
  is modelled as an association list in insertion order; `Array.prototype.sort`
  (stable since ES2019) with comparator `(a, b) => b.count - a.count` is
  modelled as `List.insertionSort` with the non-strict descending relation
  `statGE`, which is the unique stable descending-by-count sort.
-/

namespace EatsWithBene

/-! ### Catalog and price computation (`OrderForm.tsx` lines 19-28, 97-103) -/

structure FoodItem where
  value : String
  label : String
  price : ℚ
deriving DecidableEq

def foodTypes : List FoodItem :=
  [⟨"fried-rice", "Check Check Fried Rice (With Chicken, Sausage, Salad With Condiments & Free Drink)", 25⟩,
   ⟨"noodles-chicken", "Super Loaded Noodles (With Chicken)", 25⟩,
   ⟨"noodles-no-chicken", "Super Loaded Noodles (No Chicken)", 20⟩]

structure OrderTypeOption where
  value : String
  label : String
deriving DecidableEq

def baseOrderTypes : List OrderTypeOption :=
  [⟨"same-day", "Same Day (+$5 rush fee)"⟩, ⟨"pre-order", "Pre-order"⟩]

structure PriceBreakdown where
  basePricePerPack : ℚ
  subtotal : ℚ
  rushFee : ℚ
  deliveryFee : ℚ
  total : ℚ
deriving DecidableEq

/-- From `OrderForm.tsx` lines 97-103: resolve the selected food, price the packs,
add the rush fee for same-day orders and the delivery fee when delivering. -/
def computePrice (foodType : String) (packs : ℕ) (orderType : String)
    (deliverToMe : Bool) : PriceBreakdown :=
  let selectedFood := foodTypes.find? (fun f => f.value == foodType)
  let basePricePerPack : ℚ := match selectedFood with
    | some f => f.price
    | none => 0
  let subtotal := basePricePerPack * packs
  let rushFee : ℚ := if orderType == "same-day" then 5 else 0
  let deliveryFee : ℚ := if deliverToMe then 8 else 0
  { basePricePerPack := basePricePerPack
    subtotal := subtotal
    rushFee := rushFee
    deliveryFee := deliveryFee
    total := subtotal + rushFee + deliveryFee }

/-! ### Day-of-week arithmetic

A date is a count of days since 1970-01-01 (a Thursday).  `dowJS` is
JavaScript `Date.prototype.getDay` (0 = Sunday .. 6 = Saturday) and
`dayName` is the `date-fns` `'EEE'` format of that day. -/

def dowJS (n : Int) : Int := (n + 4) % 7

def dayNamesJS : List String := ["Sun", "Mon", "Tue", "Wed", "Thu", "Fri", "Sat"]

def dayName (n : Int) : String := dayNamesJS.getD (dowJS n).toNat "Sun"

/-- From `OrderForm.tsx` lines 71-95: on a weekend (`getDay` 0 or 6) only the
same-day option is offered, otherwise only the pre-order option. -/
def availableOrderTypes (n : Int) : List OrderTypeOption :=
  let weekend := dowJS n == 0 || dowJS n == 6
  if weekend then baseOrderTypes.filter (fun t => t.value == "same-day")
  else baseOrderTypes.filter (fun t => t.value == "pre-order")

/-! ### Calendar dates and date-range resolution (`DashboardContent.tsx` lines 143-190)

`toDays` converts a civil (year, month, day) triple to days since the epoch
(the standard civil-from-days arithmetic used by JavaScript `Date`); it is
affine in `d`, so `toDays y (m+1) 0` is the last day of month `m`, exactly as
`new Date(y, m+1, 0)` computes it. -/

def isLeap (y : Int) : Bool := (y % 4 == 0 && y % 100 != 0) || y % 400 == 0

def daysInMonth (y m : Int) : Int :=
  if m = 2 then (if isLeap y then 29 else 28)
  else if m = 4 ∨ m = 6 ∨ m = 9 ∨ m = 11 then 30
  else 31

def toDays (y m d : Int) : Int :=
  let yAdj := if m ≤ 2 then y - 1 else y
  let era := yAdj / 400
  let yoe := yAdj - era * 400
  let mp := (m + 9) % 12
  let doy := (153 * mp + 2) / 5 + d - 1
  let doe := yoe * 365 + yoe / 4 - yoe / 100 + doy
  era * 146097 + doe - 719468

structure CivilDate where
  y : Int
  m : Int
  d : Int
deriving DecidableEq

def CivilDate.Valid (dt : CivilDate) : Prop :=
  1 ≤ dt.y ∧ 1 ≤ dt.m ∧ dt.m ≤ 12 ∧ 1 ≤ dt.d ∧ dt.d ≤ daysInMonth dt.y dt.m

instance (dt : CivilDate) : Decidable dt.Valid := by
  unfold CivilDate.Valid; infer_instance

def CivilDate.days (dt : CivilDate) : Int := toDays dt.y dt.m dt.d

/-- The `date-fns` collaborator `startOfWeek(now, { weekStartsOn: 1 })`: step back to the
Monday of the week containing the date. -/
def startOfWeekDays (n : Int) : Int := n - (dowJS n + 6) % 7

/-- From `DashboardContent.tsx` lines 143-174: the `switch (dateRange)`.  The
result is the inclusive `[start, end]` pair as day numbers; the `default`
branch (hit by `"all"`) returns the current week, as in the source. -/
def getDateRangeFilter (dateRange : String) (now : CivilDate)
    (customStartDate customEndDate : Int) : Int × Int :=
  match dateRange with
  | "today" => (now.days, now.days)
  | "week" => (startOfWeekDays now.days, startOfWeekDays now.days + 6)
  | "month" => (toDays now.y now.m 1, toDays now.y (now.m + 1) 0)
  | "custom" => (customStartDate, customEndDate)
  | _ => (startOfWeekDays now.days, startOfWeekDays now.days + 6)

/-- From `DashboardContent.tsx` lines 186-190: the creation-timestamp range is
attached to the query only when `dateRange !== 'all'`. -/
def fetchOrdersRangeFilter (dateRange : String) (now : CivilDate)
    (customStartDate customEndDate : Int) : Option (Int × Int) :=
  if dateRange ≠ "all" then
    some (getDateRangeFilter dateRange now customStartDate customEndDate)
  else none

/-! ### Orders and the analytics aggregator (`DashboardContent.tsx` lines 71-108, 232-282)

An order record as read back by the dashboard; `created_at` is the day the
order was created (see the day-of-week conventions above). -/

structure OrderRec where
  food_type : String
  number_of_packs : ℕ
  total_amount : ℚ
  delivery_method : String
  created_at : Int
deriving DecidableEq

/-- From `DashboardContent.tsx` lines 104-108. -/
def foodTypeLabels : List (String × String) :=
  [("fried-rice", "Check Check Fried Rice"),
   ("noodles-chicken", "Super Loaded Noodles (With Chicken)"),
   ("noodles-no-chicken", "Super Loaded Noodles (No Chicken)")]

/-- The lookup `foodTypeLabels[order.food_type] || order.food_type`: the display label
when the identifier is known, the raw identifier otherwise. -/
def resolvedName (o : OrderRec) : String :=
  match foodTypeLabels.lookup o.food_type with
  | some label => label
  | none => o.food_type

/-! A JavaScript object accumulating per-key statistics (insertion-ordered
string keys) is an association list; both `foodStats` and `revenueByDay` in
`calculateAnalytics` are folds of this shape, so the accumulation step is
factored out: if the key is already present the matching entry is updated in
place, otherwise a fresh entry is appended. -/

def keyedStep {ε ω : Type} (keyE : ε → String) (keyO : ω → String)
    (bump : ε → ω → ε) (mk : ω → ε) (acc : List ε) (o : ω) : List ε :=
  if acc.any (fun e => keyE e == keyO o) then
    acc.map (fun e => if keyE e == keyO o then bump e o else e)
  else acc ++ [mk o]

def keyedFold {ε ω : Type} (keyE : ε → String) (keyO : ω → String)
    (bump : ε → ω → ε) (mk : ω → ε) (os : List ω) : List ε :=
  os.foldl (keyedStep keyE keyO bump mk) []

/-- One group of `topFoodItems`: display name, summed pack count, summed
revenue (the `{ name, ...stats }` objects of lines 250-251). -/
structure FoodStat where
  name : String
  count : ℕ
  revenue : ℚ
deriving DecidableEq

/-- From `DashboardContent.tsx` lines 240-248: group orders by resolved food name,
summing pack counts and revenue, in key-insertion order. -/
def foodStats (orders : List OrderRec) : List FoodStat :=
  keyedFold (fun e => e.name) resolvedName
    (fun e o => { e with count := e.count + o.number_of_packs,
                         revenue := e.revenue + o.total_amount })
    (fun o => ⟨resolvedName o, o.number_of_packs, o.total_amount⟩) orders

/-- The descending-by-count comparison of the stable
`.sort((a, b) => b.count - a.count)` on line 252. -/
def statGE (a b : FoodStat) : Prop := b.count ≤ a.count

instance : DecidableRel statGE := fun a b =>
  inferInstanceAs (Decidable (b.count ≤ a.count))

instance : IsTotal FoodStat statGE := ⟨fun a b => Nat.le_total b.count a.count⟩

instance : IsTrans FoodStat statGE := ⟨fun _ _ _ hab hbc => le_trans hbc hab⟩

/-- From `DashboardContent.tsx` lines 250-253: sort the groups descending by pack
count (stable) and keep the first 5. -/
def topFoodItems (orders : List OrderRec) : List FoodStat :=
  (List.insertionSort statGE (foodStats orders)).take 5

/-- One entry of the day series (lines 263, 271). -/
structure DayEntry where
  day : String
  revenue : ℚ
  orders : ℕ
deriving DecidableEq

/-- From `DashboardContent.tsx` lines 256-266: group orders by the `'EEE'` name of
their creation day, summing revenue and counting orders. -/
def revenueByDayRaw (orders : List OrderRec) : List DayEntry :=
  keyedFold (fun e => e.day) (fun o => dayName o.created_at)
    (fun e o => { e with revenue := e.revenue + o.total_amount,
                         orders := e.orders + 1 })
    (fun o => ⟨dayName o.created_at, o.total_amount, 1⟩) orders

def daysOfWeek : List String := ["Mon", "Tue", "Wed", "Thu", "Fri", "Sat", "Sun"]

/-- From `DashboardContent.tsx` lines 268-272: left outer join of the fixed week
template with the grouped data, filling missing days with zeroes. -/
def completeRevenueByDay (orders : List OrderRec) : List DayEntry :=
  daysOfWeek.map (fun d =>
    ((revenueByDayRaw orders).find? (fun e => e.day == d)).getD ⟨d, 0, 0⟩)

structure AnalyticsData where
  pickupCount : ℕ
  deliveryCount : ℕ
  totalRevenue : ℚ
  avgOrderValue : ℚ
  topFoodItems : List FoodStat
  revenueByDay : List DayEntry
deriving DecidableEq

/-- From `DashboardContent.tsx` lines 233-282: the full aggregator. -/
def calculateAnalytics (orderData : List OrderRec) : AnalyticsData :=
  { pickupCount := (orderData.filter (fun o => o.delivery_method == "pickup")).length
    deliveryCount := (orderData.filter (fun o => o.delivery_method == "delivery")).length
    totalRevenue := (orderData.map (fun o => o.total_amount)).sum
    avgOrderValue :=
      if orderData.length > 0 then
        (orderData.map (fun o => o.total_amount)).sum / orderData.length
      else 0
    topFoodItems := topFoodItems orderData
    revenueByDay := completeRevenueByDay orderData }

/-! Reference quantities the aggregation theorems compare against. -/

def packsFor (orders : List OrderRec) (n : String) : ℕ :=
  ((orders.filter (fun o => resolvedName o == n)).map (fun o => o.number_of_packs)).sum

def revenueFor (orders : List OrderRec) (n : String) : ℚ :=
  ((orders.filter (fun o => resolvedName o == n)).map (fun o => o.total_amount)).sum

def dayRevenueFor (orders : List OrderRec) (d : String) : ℚ :=
  ((orders.filter (fun o => dayName o.created_at == d)).map (fun o => o.total_amount)).sum

def dayCountFor (orders : List OrderRec) (d : String) : ℕ :=
  (orders.filter (fun o => dayName o.created_at == d)).length

/-- The keys of a JavaScript object in insertion order: first occurrence of
each string in the stream. -/
def firstOccur (ns : List String) : List String :=
  ns.foldl (fun acc n => if n ∈ acc then acc else acc ++ [n]) []

/-- A concrete order list used by the aggregation witnesses: two known food
types (one repeated) and one unknown identifier, created on three
consecutive days starting at the epoch (a Thursday). -/
def demoOrders : List OrderRec :=
  [⟨"fried-rice", 2, 63, "delivery", 0⟩,
   ⟨"mystery-dish", 2, 20, "pickup", 1⟩,
   ⟨"fried-rice", 1, 25, "pickup", 2⟩]

/-! ### Vendor dashboard order state and action buttons
(`DashboardContent.tsx` lines 71-84, 138-140, 291-358, 843-904)

`OrderStatus.cancelled` appears only in the legacy schema variant
(`pages/Dashboard.tsx`); the dashboard embedded here types orders with the
four-value enumeration and offers no path to it. -/

inductive PaymentStatus where
  | awaitingConfirmation
  | confirmedPaid
deriving DecidableEq, Fintype

inductive OrderStatus where
  | pending
  | preparing
  | ready
  | delivered
  | cancelled
deriving DecidableEq, Fintype

inductive DashAction where
  | confirmPayment
  | markPreparing
  | markReady
  | markDelivered
  | cancelOrder
deriving DecidableEq, Fintype

/-- From `DashboardContent.tsx` lines 843-904: the action buttons rendered for an
order, in on-screen order, each guarded by the state combination shown in
the source. -/
def offeredActions (payment : PaymentStatus) (status : OrderStatus) : List DashAction :=
  (if payment = .awaitingConfirmation then [.confirmPayment] else []) ++
  (if payment = .confirmedPaid ∧ status = .pending then [.markPreparing] else []) ++
  (if status = .preparing then [.markReady] else []) ++
  (if status = .ready then [.markDelivered] else [])

structure DashOrder where
  order_id : String
  payment_status : PaymentStatus
  order_status : OrderStatus
deriving DecidableEq

structure OrderUpdates where
  payment_status : Option PaymentStatus
  order_status : Option OrderStatus
deriving DecidableEq

/-- The observable outcome of one `handleOrderAction` invocation: toasts
shown, the remote update issued (if any), and the selection state left
behind. -/
structure ActionResult where
  toasts : List (String × String)
  update : Option (String × OrderUpdates)
  selectedOrderAfter : Option DashOrder
  actionTypeAfter : Option DashAction
deriving DecidableEq

/-- From `DashboardContent.tsx` lines 291-358 on the trace where the remote
update succeeds.  The `cancelOrder` case toasts an error and returns before
the update call, so the selection state is left untouched; every other case
issues one update keyed by `order_id` and clears the selection. -/
def handleOrderAction (selectedOrder : Option DashOrder)
    (actionType : Option DashAction) : ActionResult :=
  match selectedOrder, actionType with
  | some o, some a =>
    match a with
    | .confirmPayment =>
      ⟨[("Success", "Payment confirmed")],
        some (o.order_id, ⟨some .confirmedPaid, none⟩), none, none⟩
    | .markPreparing =>
      ⟨[("Success", "Order marked as preparing")],
        some (o.order_id, ⟨none, some .preparing⟩), none, none⟩
    | .markReady =>
      ⟨[("Success", "Order marked as ready")],
        some (o.order_id, ⟨none, some .ready⟩), none, none⟩
    | .markDelivered =>
      ⟨[("Success", "Order marked as delivered")],
        some (o.order_id, ⟨none, some .delivered⟩), none, none⟩
    | .cancelOrder =>
      ⟨[("Error", "Cancel feature not implemented in database")],
        none, some o, some .cancelOrder⟩
  | _, _ => ⟨[], none, selectedOrder, actionType⟩

/-! ### The public order form (`OrderForm.tsx` lines 34-66, 128-249) -/

/-- JavaScript `String.prototype.trim()` (a runtime builtin): strip leading
and trailing whitespace. -/
def trimStr (s : String) : String :=
  ⟨((s.data.dropWhile Char.isWhitespace).reverse.dropWhile Char.isWhitespace).reverse⟩

structure OrderFormData where
  name : String
  foodType : String
  packs : ℕ
  orderType : String
  pickupLocation : String
  deliverToMe : Bool
  deliveryAddress : String
  paymentMethod : String
deriving DecidableEq

structure OrderFormState where
  isSubmitting : Bool
  isSuccess : Bool
  orderId : String
  trackingToken : String
  agreedToTerms : Bool
  formData : OrderFormData
deriving DecidableEq

/-- The record inserted into the `orders` store (`OrderForm.tsx` lines
181-201), with the monetary fields taken from the component-level price
computation. -/
structure InsertPayload where
  customer_name : String
  food_type : String
  number_of_packs : ℕ
  order_type : String
  delivery_method : String
  deliver_to_me : Bool
  delivery_address : Option String
  pickup_location : String
  payment_method : String
  subtotal : ℚ
  rush_fee : ℚ
  delivery_fee : ℚ
  total_amount : ℚ
  order_status : String
  payment_status : String
deriving DecidableEq

def mkInsertPayload (f : OrderFormData) : InsertPayload :=
  let price := computePrice f.foodType f.packs f.orderType f.deliverToMe
  { customer_name := f.name
    food_type := f.foodType
    number_of_packs := f.packs
    order_type := f.orderType
    delivery_method := if f.deliverToMe then "delivery" else "pickup"
    deliver_to_me := f.deliverToMe
    delivery_address := if f.deliverToMe then some f.deliveryAddress else none
    pickup_location := f.pickupLocation
    payment_method := f.paymentMethod
    subtotal := price.subtotal
    rush_fee := price.rushFee
    delivery_fee := price.deliveryFee
    total_amount := price.total
    order_status := "pending"
    payment_status := "awaiting confirmation" }

/-- From `OrderForm.tsx` lines 128-203, the synchronous part of `handleSubmit`
up to the remote insert: the five validation guards each toast and return
before `setIsSubmitting(true)` and before any remote call; past them the
component sets `isSubmitting` and issues the insert payload.  Result:
(state afterwards, toasts shown, payload sent to the order store). -/
def handleSubmitLocal (s : OrderFormState) :
    OrderFormState × List (String × String) × Option InsertPayload :=
  if s.agreedToTerms = false then
    (s, [("Agreement Required",
      "You must agree to the terms and conditions to place an order.")], none)
  else if trimStr s.formData.name = "" then
    (s, [("Missing information", "Please enter your name.")], none)
  else if s.formData.foodType = "" then
    (s, [("Missing information", "Please select a food type.")], none)
  else if s.formData.orderType = "" then
    (s, [("Missing information", "Please select an order type.")], none)
  else if s.formData.deliverToMe = true ∧ trimStr s.formData.deliveryAddress = "" then
    (s, [("Delivery address required", "Please enter your delivery address.")], none)
  else
    ({ s with isSubmitting := true }, [], some (mkInsertPayload s.formData))

/-- The field-specific messages the form renders inline, as a function of
component state (`OrderForm.tsx` lines 728-732): the only such message is
the persistent terms hint below the submit button; no markup ties an error
message to the name, food-type, order-type or address inputs. -/
def inlineFieldMessages (s : OrderFormState) : List String :=
  if s.agreedToTerms = false then
    ["You must agree to the terms and conditions to place your order."]
  else []

/-! ### Helper lemmas on the calendar arithmetic -/

theorem toDays_month_boundary (y m : Int) (hy : 1 ≤ y) (hm : 1 ≤ m) (hm2 : m ≤ 12) :
    toDays y (m + 1) 0 = toDays y m (daysInMonth y m) := by
  interval_cases m <;>
    simp only [toDays, daysInMonth, isLeap] <;> norm_num <;> split_ifs <;> omega

theorem startOfWeekDays_spec (n : Int) :
    dowJS (startOfWeekDays n) = 1 ∧ startOfWeekDays n ≤ n ∧ n ≤ startOfWeekDays n + 6 := by
  simp only [dowJS, startOfWeekDays]
  omega

theorem toDays_mono_day (y m d d' : Int) (h : d ≤ d') : toDays y m d ≤ toDays y m d' := by
  simp only [toDays]; omega

theorem dowJS_lt (n : Int) : dowJS n = 0 ∨ dowJS n = 1 ∨ dowJS n = 2 ∨ dowJS n = 3 ∨
    dowJS n = 4 ∨ dowJS n = 5 ∨ dowJS n = 6 := by
  simp only [dowJS]; omega

/-! ### Claim theorems: pricing, order-type policy, date-range resolution -/

/-- C1. For every order request evaluated against the fixed 3-item catalog,
the computed breakdown has: unit price the catalog price of the matching item,
or 0 when no catalog entry matches; subtotal = unit price × pack count;
rush fee 5.00 iff order type is "same-day"; delivery fee 8.00 iff the delivery
flag is set; total = subtotal + rush fee + delivery fee. -/
theorem price_breakdown_correct (foodType : String) (packs : ℕ) (orderType : String)
    (deliverToMe : Bool) :
    (∀ f ∈ foodTypes, f.value = foodType →
      (computePrice foodType packs orderType deliverToMe).basePricePerPack = f.price) ∧
    ((∀ f ∈ foodTypes, f.value ≠ foodType) →
      (computePrice foodType packs orderType deliverToMe).basePricePerPack = 0) ∧
    (computePrice foodType packs orderType deliverToMe).subtotal =
      (computePrice foodType packs orderType deliverToMe).basePricePerPack * packs ∧
    (computePrice foodType packs orderType deliverToMe).rushFee =
      (if orderType = "same-day" then (5 : ℚ) else 0) ∧
    (computePrice foodType packs orderType deliverToMe).deliveryFee =
      (if deliverToMe then (8 : ℚ) else 0) ∧
    (computePrice foodType packs orderType deliverToMe).total =
      (computePrice foodType packs orderType deliverToMe).subtotal +
      (computePrice foodType packs orderType deliverToMe).rushFee +
      (computePrice foodType packs orderType deliverToMe).deliveryFee := by
  refine ⟨?_, ?_, ?_, ?_, ?_, ?_⟩
  · intro f hf hfv
    fin_cases hf <;> (subst hfv; rfl)
  · intro hnone
    have hfind : foodTypes.find? (fun f => f.value == foodType) = none := by
      rw [List.find?_eq_none]
      intro x hx
      simpa using hnone x hx
    simp [computePrice, hfind]
  · simp [computePrice]
  · simp only [computePrice, beq_iff_eq]
  · rfl
  · rfl

/-- C1 witness: a concrete order request, 3 packs of the $20 item, pre-order,
no delivery. -/
theorem price_breakdown_correct_witness :
    ((∀ f ∈ foodTypes, f.value = "noodles-no-chicken" →
      (computePrice "noodles-no-chicken" 3 "pre-order" false).basePricePerPack = f.price) ∧
    ((∀ f ∈ foodTypes, f.value ≠ "noodles-no-chicken") →
      (computePrice "noodles-no-chicken" 3 "pre-order" false).basePricePerPack = 0) ∧
    (computePrice "noodles-no-chicken" 3 "pre-order" false).subtotal =
      (computePrice "noodles-no-chicken" 3 "pre-order" false).basePricePerPack * 3 ∧
    (computePrice "noodles-no-chicken" 3 "pre-order" false).rushFee =
      (if "pre-order" = "same-day" then (5 : ℚ) else 0) ∧
    (computePrice "noodles-no-chicken" 3 "pre-order" false).deliveryFee =
      (if false then (8 : ℚ) else 0) ∧
    (computePrice "noodles-no-chicken" 3 "pre-order" false).total =
      (computePrice "noodles-no-chicken" 3 "pre-order" false).subtotal +
      (computePrice "noodles-no-chicken" 3 "pre-order" false).rushFee +
      (computePrice "noodles-no-chicken" 3 "pre-order" false).deliveryFee) ∧
    (computePrice "noodles-no-chicken" 3 "pre-order" false).total = 60 :=
  ⟨price_breakdown_correct "noodles-no-chicken" 3 "pre-order" false, by
    simp [computePrice, foodTypes, List.find?]
    norm_num⟩

/-- C5. The order-type eligibility policy is a total function of the calendar
date: on a Saturday or Sunday it offers exactly the single same-day option,
on any other weekday exactly the single pre-order option. -/
theorem availableOrderTypes_policy (n : Int) :
    ((dayName n = "Sat" ∨ dayName n = "Sun") →
      availableOrderTypes n = [⟨"same-day", "Same Day (+$5 rush fee)"⟩]) ∧
    (¬(dayName n = "Sat" ∨ dayName n = "Sun") →
      availableOrderTypes n = [⟨"pre-order", "Pre-order"⟩]) := by
  rcases dowJS_lt n with h | h | h | h | h | h | h <;>
    simp [availableOrderTypes, dayName, dayNamesJS, baseOrderTypes, h]

/-- C5 witness: 2024-03-16 was a Saturday and yields exactly the same-day
option; 2024-03-19 was a Tuesday and yields exactly the pre-order option. -/
theorem availableOrderTypes_policy_witness :
    (dayName (toDays 2024 3 16) = "Sat" ∨ dayName (toDays 2024 3 16) = "Sun") ∧
    availableOrderTypes (toDays 2024 3 16) = [⟨"same-day", "Same Day (+$5 rush fee)"⟩] ∧
    ¬(dayName (toDays 2024 3 19) = "Sat" ∨ dayName (toDays 2024 3 19) = "Sun") ∧
    availableOrderTypes (toDays 2024 3 19) = [⟨"pre-order", "Pre-order"⟩] :=
  ⟨by decide,
   (availableOrderTypes_policy (toDays 2024 3 16)).1 (by decide),
   by decide,
   (availableOrderTypes_policy (toDays 2024 3 19)).2 (by decide)⟩

/-- C6. Date-range resolution is a pure function of the current date and
mode: "today" yields [today, today]; "week" yields the Monday-start week
containing the date; "month" the first through last day of the calendar
month; "custom" the externally supplied bounds; and with mode "all" the
order query applies no creation-timestamp range at all. -/
theorem dateRangeFilter_spec (now : CivilDate) (hv : now.Valid) (cs ce : Int) :
    getDateRangeFilter "today" now cs ce = (now.days, now.days) ∧
    ((getDateRangeFilter "week" now cs ce).2 = (getDateRangeFilter "week" now cs ce).1 + 6 ∧
      dowJS (getDateRangeFilter "week" now cs ce).1 = 1 ∧
      (getDateRangeFilter "week" now cs ce).1 ≤ now.days ∧
      now.days ≤ (getDateRangeFilter "week" now cs ce).2) ∧
    ((getDateRangeFilter "month" now cs ce).1 = toDays now.y now.m 1 ∧
      (getDateRangeFilter "month" now cs ce).2 = toDays now.y now.m (daysInMonth now.y now.m) ∧
      (getDateRangeFilter "month" now cs ce).1 ≤ now.days ∧
      now.days ≤ (getDateRangeFilter "month" now cs ce).2) ∧
    getDateRangeFilter "custom" now cs ce = (cs, ce) ∧
    fetchOrdersRangeFilter "all" now cs ce = none := by
  obtain ⟨hy, hm, hm2, hd, hd2⟩ := hv
  refine ⟨rfl, ⟨rfl, ?_, ?_, ?_⟩, ⟨rfl, ?_, ?_, ?_⟩, rfl, rfl⟩
  · exact (startOfWeekDays_spec now.days).1
  · exact (startOfWeekDays_spec now.days).2.1
  · exact (startOfWeekDays_spec now.days).2.2
  · exact toDays_month_boundary now.y now.m hy hm hm2
  · exact toDays_mono_day now.y now.m 1 now.d hd
  · calc now.days = toDays now.y now.m now.d := rfl
      _ ≤ toDays now.y now.m (daysInMonth now.y now.m) := toDays_mono_day _ _ _ _ hd2
      _ = toDays now.y (now.m + 1) 0 := (toDays_month_boundary now.y now.m hy hm hm2).symm
      _ = (getDateRangeFilter "month" now cs ce).2 := rfl

/-- C6 witness: the concrete date 2026-10-12 (a Monday) with custom bounds
(100, 200). -/
theorem dateRangeFilter_spec_witness :
    (CivilDate.mk 2026 10 12).Valid ∧
    (getDateRangeFilter "today" ⟨2026, 10, 12⟩ 100 200 =
      ((CivilDate.mk 2026 10 12).days, (CivilDate.mk 2026 10 12).days) ∧
    ((getDateRangeFilter "week" ⟨2026, 10, 12⟩ 100 200).2 =
        (getDateRangeFilter "week" ⟨2026, 10, 12⟩ 100 200).1 + 6 ∧
      dowJS (getDateRangeFilter "week" ⟨2026, 10, 12⟩ 100 200).1 = 1 ∧
      (getDateRangeFilter "week" ⟨2026, 10, 12⟩ 100 200).1 ≤ (CivilDate.mk 2026 10 12).days ∧
      (CivilDate.mk 2026 10 12).days ≤ (getDateRangeFilter "week" ⟨2026, 10, 12⟩ 100 200).2) ∧
    ((getDateRangeFilter "month" ⟨2026, 10, 12⟩ 100 200).1 = toDays 2026 10 1 ∧
      (getDateRangeFilter "month" ⟨2026, 10, 12⟩ 100 200).2 =
        toDays 2026 10 (daysInMonth 2026 10) ∧
      (getDateRangeFilter "month" ⟨2026, 10, 12⟩ 100 200).1 ≤ (CivilDate.mk 2026 10 12).days ∧
      (CivilDate.mk 2026 10 12).days ≤ (getDateRangeFilter "month" ⟨2026, 10, 12⟩ 100 200).2) ∧
    getDateRangeFilter "custom" ⟨2026, 10, 12⟩ 100 200 = (100, 200) ∧
    fetchOrdersRangeFilter "all" ⟨2026, 10, 12⟩ 100 200 = none) :=
  ⟨by decide, dateRangeFilter_spec ⟨2026, 10, 12⟩ (by decide) 100 200⟩


/-! ### Keyed-accumulation lemmas -/

section KeyedFoldLemmas

variable {ε ω : Type} (keyE : ε → String) (keyO : ω → String)
variable (bump : ε → ω → ε) (mk : ω → ε)

theorem keyedStep_any_iff (acc : List ε) (o : ω) :
    (acc.any (fun e => keyE e == keyO o) = true) ↔ keyO o ∈ acc.map keyE := by
  simp [List.any_eq_true, List.mem_map]

theorem keyedStep_keys (hKB : ∀ e o, keyE (bump e o) = keyE e)
    (hKM : ∀ o, keyE (mk o) = keyO o) (acc : List ε) (o : ω) :
    (keyedStep keyE keyO bump mk acc o).map keyE =
      if keyO o ∈ acc.map keyE then acc.map keyE else acc.map keyE ++ [keyO o] := by
  unfold keyedStep
  by_cases h : keyO o ∈ acc.map keyE
  · rw [if_pos h, if_pos ((keyedStep_any_iff keyE keyO acc o).mpr h)]
    rw [List.map_map]
    refine List.map_congr_left ?_
    intro e he
    simp only [Function.comp_apply]
    split
    · exact hKB e o
    · rfl
  · rw [if_neg h, if_neg (by simpa using (keyedStep_any_iff keyE keyO acc o).not.mpr h)]
    simp [hKM]

theorem keyedFold_keys_aux (hKB : ∀ e o, keyE (bump e o) = keyE e)
    (hKM : ∀ o, keyE (mk o) = keyO o) (os : List ω) :
    ∀ acc : List ε,
      (os.foldl (keyedStep keyE keyO bump mk) acc).map keyE =
        (os.map keyO).foldl (fun a n => if n ∈ a then a else a ++ [n]) (acc.map keyE) := by
  induction os with
  | nil => intro acc; rfl
  | cons o os ih =>
    intro acc
    simp only [List.foldl_cons, List.map_cons]
    rw [ih, keyedStep_keys keyE keyO bump mk hKB hKM]

theorem keyedFold_keys (hKB : ∀ e o, keyE (bump e o) = keyE e)
    (hKM : ∀ o, keyE (mk o) = keyO o) (os : List ω) :
    (keyedFold keyE keyO bump mk os).map keyE = firstOccur (os.map keyO) := by
  unfold keyedFold firstOccur
  exact keyedFold_keys_aux keyE keyO bump mk hKB hKM os []

end KeyedFoldLemmas

theorem firstOccur_aux_mem (ns : List String) :
    ∀ (acc : List String) (x : String),
      x ∈ ns.foldl (fun a n => if n ∈ a then a else a ++ [n]) acc ↔ x ∈ acc ∨ x ∈ ns := by
  induction ns with
  | nil => simp
  | cons n ns ih =>
    intro acc x
    simp only [List.foldl_cons, List.mem_cons]
    by_cases h : n ∈ acc
    · rw [if_pos h, ih]
      constructor
      · rintro (hx | hx)
        · exact Or.inl hx
        · exact Or.inr (Or.inr hx)
      · rintro (hx | hx | hx)
        · exact Or.inl hx
        · exact Or.inl (hx ▸ h)
        · exact Or.inr hx
    · rw [if_neg h, ih]
      simp only [List.mem_append, List.mem_singleton]
      tauto

theorem mem_firstOccur (ns : List String) (x : String) :
    x ∈ firstOccur ns ↔ x ∈ ns := by
  unfold firstOccur
  rw [firstOccur_aux_mem]
  simp

theorem firstOccur_aux_nodup (ns : List String) :
    ∀ acc : List String, acc.Nodup →
      (ns.foldl (fun a n => if n ∈ a then a else a ++ [n]) acc).Nodup := by
  induction ns with
  | nil => intro acc h; exact h
  | cons n ns ih =>
    intro acc hacc
    simp only [List.foldl_cons]
    by_cases h : n ∈ acc
    · rw [if_pos h]; exact ih acc hacc
    · rw [if_neg h]
      refine ih _ ?_
      simp [List.nodup_append, hacc, h]

theorem firstOccur_nodup (ns : List String) : (firstOccur ns).Nodup :=
  firstOccur_aux_nodup ns [] List.nodup_nil

section KeyedFoldSums

variable {ε ω : Type} {M : Type} [AddCommMonoid M]
variable (keyE : ε → String) (keyO : ω → String)
variable (bump : ε → ω → ε) (mk : ω → ε)

theorem filter_key_eq_nil {l : List ε} {k : String} (h : k ∉ l.map keyE) :
    l.filter (fun e => keyE e == k) = [] := by
  refine List.filter_eq_nil_iff.mpr ?_
  intro e he
  simp only [beq_iff_eq]
  intro hk
  exact h (List.mem_map.mpr ⟨e, he, hk⟩)

theorem filter_map_update (hKB : ∀ e o, keyE (bump e o) = keyE e) (o : ω)
    (l : List ε) (k : String) :
    (l.map (fun e => if keyE e == keyO o then bump e o else e)).filter
        (fun e => keyE e == k) =
      (l.filter (fun e => keyE e == k)).map
        (fun e => if keyE e == keyO o then bump e o else e) := by
  rw [List.filter_map]
  congr 1
  refine List.filter_congr ?_
  intro e _
  simp only [Function.comp_apply]
  split
  · rw [hKB]
  · rfl

theorem filter_singleton_of_nodup (l : List ε) (k : String)
    (hnd : (l.map keyE).Nodup) (hmem : k ∈ l.map keyE) :
    ∃ e, l.filter (fun x => keyE x == k) = [e] ∧ keyE e = k := by
  induction l with
  | nil => simp at hmem
  | cons a t ih =>
    simp only [List.map_cons, List.nodup_cons] at hnd
    rcases List.mem_cons.mp hmem with hk | hk
    · refine ⟨a, ?_, hk.symm⟩
      rw [List.filter_cons_of_pos (by simp [hk.symm])]
      rw [filter_key_eq_nil keyE (by rw [hk]; exact hnd.1)]
    · obtain ⟨e, he, hek⟩ := ih hnd.2 hk
      refine ⟨e, ?_, hek⟩
      rw [List.filter_cons_of_neg, he]
      simp only [beq_iff_eq]
      intro hak
      exact hnd.1 (hak ▸ hk)

theorem keyedStep_filter_sum (hKB : ∀ e o, keyE (bump e o) = keyE e)
    (hKM : ∀ o, keyE (mk o) = keyO o)
    (μ : ε → M) (ν : ω → M)
    (hMB : ∀ e o, μ (bump e o) = μ e + ν o) (hMM : ∀ o, μ (mk o) = ν o)
    (acc : List ε) (o : ω) (k : String) (hnd : (acc.map keyE).Nodup) :
    (((keyedStep keyE keyO bump mk acc o).filter (fun e => keyE e == k)).map μ).sum =
      ((acc.filter (fun e => keyE e == k)).map μ).sum +
        (if keyO o = k then ν o else 0) := by
  unfold keyedStep
  by_cases hmem : keyO o ∈ acc.map keyE
  · rw [if_pos ((keyedStep_any_iff keyE keyO acc o).mpr hmem)]
    rw [filter_map_update keyE keyO bump hKB]
    by_cases hk : keyO o = k
    · subst hk
      obtain ⟨e, he, hek⟩ := filter_singleton_of_nodup keyE acc (keyO o) hnd hmem
      rw [he]
      simp [hek, hMB]
    · have : (acc.filter (fun e => keyE e == k)).map
          (fun e => if keyE e == keyO o then bump e o else e) =
          acc.filter (fun e => keyE e == k) := by
        refine (List.map_congr_left ?_).trans (List.map_id _)
        intro e he
        have : keyE e = k := by simpa using (List.mem_filter.mp he).2
        rw [if_neg (by simp [this, hk]; exact fun h => hk h.symm)]
        rfl
      rw [this, if_neg hk, add_zero]
  · rw [if_neg (by simpa using (keyedStep_any_iff keyE keyO acc o).not.mpr hmem)]
    rw [List.filter_append, List.map_append, List.sum_append]
    by_cases hk : keyO o = k
    · rw [if_pos hk]
      congr 1
      rw [List.filter_cons_of_pos (by simp [hKM, hk])]
      simp [hMM]
    · rw [if_neg hk]
      rw [List.filter_cons_of_neg (by simp [hKM, hk])]
      simp

theorem keyedFold_filter_sum (hKB : ∀ e o, keyE (bump e o) = keyE e)
    (hKM : ∀ o, keyE (mk o) = keyO o)
    (μ : ε → M) (ν : ω → M)
    (hMB : ∀ e o, μ (bump e o) = μ e + ν o) (hMM : ∀ o, μ (mk o) = ν o)
    (os : List ω) (k : String) :
    (((keyedFold keyE keyO bump mk os).filter (fun e => keyE e == k)).map μ).sum =
      ((os.filter (fun o => keyO o == k)).map ν).sum := by
  induction os using List.reverseRecOn with
  | nil => rfl
  | append_singleton os o ih =>
    have hfold : keyedFold keyE keyO bump mk (os ++ [o]) =
        keyedStep keyE keyO bump mk (keyedFold keyE keyO bump mk os) o := by
      unfold keyedFold
      rw [List.foldl_append]
      rfl
    have hnd : ((keyedFold keyE keyO bump mk os).map keyE).Nodup := by
      rw [keyedFold_keys keyE keyO bump mk hKB hKM]
      exact firstOccur_nodup _
    rw [hfold, keyedStep_filter_sum keyE keyO bump mk hKB hKM μ ν hMB hMM _ o k hnd, ih]
    rw [List.filter_append, List.map_append, List.sum_append]
    congr 1
    by_cases hk : keyO o = k
    · rw [if_pos hk, List.filter_cons_of_pos (by simp [hk])]
      simp
    · rw [if_neg hk, List.filter_cons_of_neg (by simp [hk])]
      simp

theorem keyedFold_entry_sum (hKB : ∀ e o, keyE (bump e o) = keyE e)
    (hKM : ∀ o, keyE (mk o) = keyO o)
    (μ : ε → M) (ν : ω → M)
    (hMB : ∀ e o, μ (bump e o) = μ e + ν o) (hMM : ∀ o, μ (mk o) = ν o)
    (os : List ω) (e : ε) (he : e ∈ keyedFold keyE keyO bump mk os) :
    μ e = ((os.filter (fun o => keyO o == keyE e)).map ν).sum := by
  have hnd : ((keyedFold keyE keyO bump mk os).map keyE).Nodup := by
    rw [keyedFold_keys keyE keyO bump mk hKB hKM]
    exact firstOccur_nodup _
  have hmem : keyE e ∈ (keyedFold keyE keyO bump mk os).map keyE :=
    List.mem_map.mpr ⟨e, he, rfl⟩
  obtain ⟨e', he', hek⟩ :=
    filter_singleton_of_nodup keyE (keyedFold keyE keyO bump mk os) (keyE e) hnd hmem
  have hein : e ∈ (keyedFold keyE keyO bump mk os).filter (fun x => keyE x == keyE e) :=
    List.mem_filter.mpr ⟨he, by simp⟩
  rw [he'] at hein
  have : e = e' := by simpa using hein
  subst this
  have := keyedFold_filter_sum keyE keyO bump mk hKB hKM μ ν hMB hMM os (keyE e)
  rw [he'] at this
  simpa using this

end KeyedFoldSums

/-! ### Aggregation lemmas instantiated for `foodStats` and `revenueByDayRaw` -/

theorem foodStats_keys (orders : List OrderRec) :
    (foodStats orders).map (fun e => e.name) = firstOccur (orders.map resolvedName) := by
  unfold foodStats
  exact keyedFold_keys (fun e : FoodStat => e.name) resolvedName
    (fun (e : FoodStat) (o : OrderRec) =>
      { e with count := e.count + o.number_of_packs,
               revenue := e.revenue + o.total_amount })
    (fun o : OrderRec => ⟨resolvedName o, o.number_of_packs, o.total_amount⟩)
    (fun _ _ => rfl) (fun _ => rfl) orders

theorem foodStats_count (orders : List OrderRec) (e : FoodStat)
    (he : e ∈ foodStats orders) : e.count = packsFor orders e.name := by
  unfold foodStats at he
  simpa [packsFor] using
    keyedFold_entry_sum (fun e => e.name) resolvedName
      (fun e o => { e with count := e.count + o.number_of_packs,
                           revenue := e.revenue + o.total_amount })
      (fun o => ⟨resolvedName o, o.number_of_packs, o.total_amount⟩)
      (fun _ _ => rfl) (fun _ => rfl)
      (fun e => e.count) (fun o => o.number_of_packs)
      (fun _ _ => rfl) (fun _ => rfl) orders e he

theorem foodStats_revenue (orders : List OrderRec) (e : FoodStat)
    (he : e ∈ foodStats orders) : e.revenue = revenueFor orders e.name := by
  unfold foodStats at he
  simpa [revenueFor] using
    keyedFold_entry_sum (fun e => e.name) resolvedName
      (fun e o => { e with count := e.count + o.number_of_packs,
                           revenue := e.revenue + o.total_amount })
      (fun o => ⟨resolvedName o, o.number_of_packs, o.total_amount⟩)
      (fun _ _ => rfl) (fun _ => rfl)
      (fun e => e.revenue) (fun o => o.total_amount)
      (fun _ _ => rfl) (fun _ => rfl) orders e he

theorem revenueByDayRaw_keys (orders : List OrderRec) :
    (revenueByDayRaw orders).map (fun e => e.day) =
      firstOccur (orders.map (fun o => dayName o.created_at)) := by
  unfold revenueByDayRaw
  exact keyedFold_keys (fun e : DayEntry => e.day)
    (fun o : OrderRec => dayName o.created_at)
    (fun (e : DayEntry) (o : OrderRec) =>
      { e with revenue := e.revenue + o.total_amount, orders := e.orders + 1 })
    (fun o : OrderRec => ⟨dayName o.created_at, o.total_amount, 1⟩)
    (fun _ _ => rfl) (fun _ => rfl) orders

theorem revenueByDayRaw_revenue (orders : List OrderRec) (e : DayEntry)
    (he : e ∈ revenueByDayRaw orders) : e.revenue = dayRevenueFor orders e.day := by
  unfold revenueByDayRaw at he
  simpa [dayRevenueFor] using
    keyedFold_entry_sum (fun e => e.day) (fun o => dayName o.created_at)
      (fun e o => { e with revenue := e.revenue + o.total_amount,
                           orders := e.orders + 1 })
      (fun o => ⟨dayName o.created_at, o.total_amount, 1⟩)
      (fun _ _ => rfl) (fun _ => rfl)
      (fun e => e.revenue) (fun o => o.total_amount)
      (fun _ _ => rfl) (fun _ => rfl) orders e he

theorem revenueByDayRaw_orders (orders : List OrderRec) (e : DayEntry)
    (he : e ∈ revenueByDayRaw orders) : e.orders = dayCountFor orders e.day := by
  unfold revenueByDayRaw at he
  have hsum : e.orders =
      ((orders.filter (fun o => dayName o.created_at == e.day)).map
        (fun _ => (1 : ℕ))).sum :=
    keyedFold_entry_sum (fun e => e.day) (fun o => dayName o.created_at)
      (fun e o => { e with revenue := e.revenue + o.total_amount,
                           orders := e.orders + 1 })
      (fun o => ⟨dayName o.created_at, o.total_amount, 1⟩)
      (fun _ _ => rfl) (fun _ => rfl)
      (fun e => e.orders) (fun _ : OrderRec => (1 : ℕ))
      (fun _ _ => rfl) (fun _ => rfl) orders e he
  rw [hsum]
  unfold dayCountFor
  generalize orders.filter (fun o => dayName o.created_at == e.day) = l
  induction l with
  | nil => rfl
  | cons a t ih =>
    simp only [List.map_cons, List.sum_cons, List.length_cons, ih]
    omega

/-! ### Stability of the descending sort -/

theorem filter_orderedInsert_statGE (x : FoodStat) (l : List FoodStat) (k : ℕ) :
    (List.orderedInsert statGE x l).filter (fun e => e.count == k) =
      if x.count = k then x :: l.filter (fun e => e.count == k)
      else l.filter (fun e => e.count == k) := by
  rw [List.orderedInsert_eq_take_drop, List.filter_append]
  have hsplit : l.filter (fun e => e.count == k) =
      (l.takeWhile fun b => decide ¬statGE x b).filter (fun e => e.count == k) ++
        (l.dropWhile fun b => decide ¬statGE x b).filter (fun e => e.count == k) := by
    rw [← List.filter_append, List.takeWhile_append_dropWhile]
  by_cases hk : x.count = k
  · have htake : (l.takeWhile fun b => decide ¬statGE x b).filter
        (fun e => e.count == k) = [] := by
      refine List.filter_eq_nil_iff.mpr ?_
      intro e he
      have hgt : ¬ (e.count ≤ x.count) := by
        simpa [statGE] using List.mem_takeWhile_imp he
      simp only [beq_iff_eq]
      omega
    rw [if_pos hk, htake, List.filter_cons_of_pos (by simp [hk]), hsplit, htake]
    rfl
  · have hxout : ((x :: l.dropWhile fun b => decide ¬statGE x b).filter
        (fun e => e.count == k)) =
        (l.dropWhile fun b => decide ¬statGE x b).filter (fun e => e.count == k) :=
      List.filter_cons_of_neg (by simp [hk])
    rw [if_neg hk, hxout, hsplit]

theorem filter_insertionSort_statGE (l : List FoodStat) (k : ℕ) :
    (List.insertionSort statGE l).filter (fun e => e.count == k) =
      l.filter (fun e => e.count == k) := by
  induction l with
  | nil => rfl
  | cons a t ih =>
    simp only [List.insertionSort]
    rw [filter_orderedInsert_statGE, ih]
    by_cases hk : a.count = k
    · rw [if_pos hk, List.filter_cons_of_pos (by simp [hk])]
    · rw [if_neg hk, List.filter_cons_of_neg (by simp [hk])]

/-! ### Claim theorems: analytics aggregation -/

/-- C2. `topFoodItems` groups orders by resolved display name (falling back
to the raw identifier), sums pack counts and revenue per group, sorts the
groups descending by summed pack count, truncates to at most 5 entries, and
breaks ties stably: entries with equal counts keep the order of `foodStats`,
whose key order is the first-encounter order of the names in the input. -/
theorem topFoodItems_spec (orders : List OrderRec) :
    topFoodItems orders = (List.insertionSort statGE (foodStats orders)).take 5 ∧
    (topFoodItems orders).length ≤ 5 ∧
    List.Sorted statGE (topFoodItems orders) ∧
    (∀ e ∈ topFoodItems orders, e ∈ foodStats orders) ∧
    (∀ e ∈ foodStats orders,
      e.count = packsFor orders e.name ∧ e.revenue = revenueFor orders e.name) ∧
    (foodStats orders).map (fun e => e.name) = firstOccur (orders.map resolvedName) ∧
    (∀ k : ℕ, (List.insertionSort statGE (foodStats orders)).filter
        (fun e => e.count == k) =
      (foodStats orders).filter (fun e => e.count == k)) := by
  refine ⟨rfl, List.length_take_le 5 _, ?_, ?_, ?_, foodStats_keys orders,
    fun k => filter_insertionSort_statGE (foodStats orders) k⟩
  · exact List.Pairwise.sublist (List.take_sublist 5 _)
      (List.sorted_insertionSort statGE _)
  · intro e he
    exact (List.mem_insertionSort statGE).mp (List.mem_of_mem_take he)
  · intro e he
    exact ⟨foodStats_count orders e he, foodStats_revenue orders e he⟩

/-- C2 witness: the theorem applied to a concrete three-order list (two food
types, one unknown identifier). -/
theorem topFoodItems_spec_witness :
    (topFoodItems demoOrders =
        (List.insertionSort statGE (foodStats demoOrders)).take 5 ∧
      (topFoodItems demoOrders).length ≤ 5 ∧
      List.Sorted statGE (topFoodItems demoOrders) ∧
      (∀ e ∈ topFoodItems demoOrders, e ∈ foodStats demoOrders) ∧
      (∀ e ∈ foodStats demoOrders,
        e.count = packsFor demoOrders e.name ∧
          e.revenue = revenueFor demoOrders e.name) ∧
      (foodStats demoOrders).map (fun e => e.name) =
        firstOccur (demoOrders.map resolvedName) ∧
      (∀ k : ℕ, (List.insertionSort statGE (foodStats demoOrders)).filter
          (fun e => e.count == k) =
        (foodStats demoOrders).filter (fun e => e.count == k))) :=
  topFoodItems_spec demoOrders

/-- C3. `revenueByDay` always has exactly 7 entries, one per weekday in the
fixed order Mon..Sun; each entry carries the summed revenue and the count of
the orders created on that weekday, zero-filled for absent weekdays. -/
theorem revenueByDay_spec (orders : List OrderRec) :
    (completeRevenueByDay orders).length = 7 ∧
    (completeRevenueByDay orders).map (fun e => e.day) = daysOfWeek ∧
    ∀ e ∈ completeRevenueByDay orders,
      e.revenue = dayRevenueFor orders e.day ∧ e.orders = dayCountFor orders e.day := by
  refine ⟨rfl, ?_, ?_⟩
  · unfold completeRevenueByDay
    rw [List.map_map]
    refine (List.map_congr_left ?_).trans (List.map_id _)
    intro d _
    simp only [Function.comp_apply, id_eq]
    rcases hf : (revenueByDayRaw orders).find? (fun e => e.day == d) with _ | e <;>
      rw [hf]
    · rfl
    · simpa using List.find?_some hf
  · intro e he
    unfold completeRevenueByDay at he
    obtain ⟨d, _, hd⟩ := List.mem_map.mp he
    rcases hf : (revenueByDayRaw orders).find? (fun x => x.day == d) with _ | e'
    · rw [hf] at hd
      simp only [Option.getD_none] at hd
      subst hd
      have hnot : d ∉ (revenueByDayRaw orders).map (fun x => x.day) := by
        intro hmem
        obtain ⟨x, hx, hxd⟩ := List.mem_map.mp hmem
        exact absurd (by simpa using hxd) (by simpa using List.find?_eq_none.mp hf x hx)
      rw [revenueByDayRaw_keys, mem_firstOccur] at hnot
      have hfil : orders.filter (fun o => dayName o.created_at == d) = [] := by
        refine List.filter_eq_nil_iff.mpr ?_
        intro o ho
        simp only [beq_iff_eq]
        intro hod
        exact hnot (List.mem_map.mpr ⟨o, ho, hod⟩)
      constructor
      · show (0 : ℚ) = dayRevenueFor orders d
        unfold dayRevenueFor
        rw [hfil]
        rfl
      · show 0 = dayCountFor orders d
        unfold dayCountFor
        rw [hfil]
        rfl
    · rw [hf] at hd
      simp only [Option.getD_some] at hd
      subst hd
      exact ⟨revenueByDayRaw_revenue orders e'
          (List.mem_of_find?_eq_some hf),
        revenueByDayRaw_orders orders e' (List.mem_of_find?_eq_some hf)⟩

/-- C3 witness: the theorem applied to the concrete three-order list. -/
theorem revenueByDay_spec_witness :
    ((completeRevenueByDay demoOrders).length = 7 ∧
      (completeRevenueByDay demoOrders).map (fun e => e.day) = daysOfWeek ∧
      ∀ e ∈ completeRevenueByDay demoOrders,
        e.revenue = dayRevenueFor demoOrders e.day ∧
          e.orders = dayCountFor demoOrders e.day) :=
  revenueByDay_spec demoOrders

/-- C4. Aggregating the empty list yields zero counts, zero revenue, zero
average (the division is guarded), no top items and an all-zero 7-day
series; on any non-empty list the average is total revenue over the number
of orders. -/
theorem aggregate_empty_and_avg :
    calculateAnalytics [] =
      ⟨0, 0, 0, 0, [],
        [⟨"Mon", 0, 0⟩, ⟨"Tue", 0, 0⟩, ⟨"Wed", 0, 0⟩, ⟨"Thu", 0, 0⟩,
         ⟨"Fri", 0, 0⟩, ⟨"Sat", 0, 0⟩, ⟨"Sun", 0, 0⟩]⟩ ∧
    ∀ orders : List OrderRec, orders ≠ [] →
      (calculateAnalytics orders).avgOrderValue =
        (calculateAnalytics orders).totalRevenue / orders.length := by
  constructor
  · rfl
  · intro orders h
    have hpos : 0 < orders.length := List.length_pos.mpr h
    simp [calculateAnalytics, hpos]

/-- C4 witness: the non-empty half applied to the concrete three-order
list. -/
theorem aggregate_empty_and_avg_witness :
    demoOrders ≠ [] ∧
    (calculateAnalytics demoOrders).avgOrderValue =
      (calculateAnalytics demoOrders).totalRevenue / demoOrders.length :=
  ⟨by simp [demoOrders], aggregate_empty_and_avg.2 demoOrders (by simp [demoOrders])⟩

/-! ### Claim theorems: dashboard actions and order submission -/

/-- C7. The set of offered action buttons is determined by the order's state
combination: confirm-payment iff payment is awaiting confirmation; start
preparing iff payment is confirmed and the order is pending; mark-ready iff
preparing; mark-delivered iff ready; hence confirm-payment is never offered
after payment is confirmed and mark-delivered never before the order is
ready. -/
theorem offeredActions_spec :
    ∀ (payment : PaymentStatus) (status : OrderStatus),
      (DashAction.confirmPayment ∈ offeredActions payment status ↔
        payment = .awaitingConfirmation) ∧
      (DashAction.markPreparing ∈ offeredActions payment status ↔
        payment = .confirmedPaid ∧ status = .pending) ∧
      (DashAction.markReady ∈ offeredActions payment status ↔ status = .preparing) ∧
      (DashAction.markDelivered ∈ offeredActions payment status ↔ status = .ready) ∧
      (payment = .confirmedPaid →
        DashAction.confirmPayment ∉ offeredActions payment status) ∧
      (status ≠ .ready → DashAction.markDelivered ∉ offeredActions payment status) := by
  decide

/-- C7 witness: a concrete state combination (payment confirmed, order
ready) offers exactly the mark-delivered button. -/
theorem offeredActions_spec_witness :
    ((DashAction.confirmPayment ∈
        offeredActions .confirmedPaid .ready ↔
        PaymentStatus.confirmedPaid = .awaitingConfirmation) ∧
      (DashAction.markPreparing ∈ offeredActions .confirmedPaid .ready ↔
        PaymentStatus.confirmedPaid = .confirmedPaid ∧ OrderStatus.ready = .pending) ∧
      (DashAction.markReady ∈ offeredActions .confirmedPaid .ready ↔
        OrderStatus.ready = .preparing) ∧
      (DashAction.markDelivered ∈ offeredActions .confirmedPaid .ready ↔
        OrderStatus.ready = .ready) ∧
      (PaymentStatus.confirmedPaid = .confirmedPaid →
        DashAction.confirmPayment ∉ offeredActions .confirmedPaid .ready) ∧
      (OrderStatus.ready ≠ .ready →
        DashAction.markDelivered ∉ offeredActions .confirmedPaid .ready)) ∧
    offeredActions .confirmedPaid .ready = [.markDelivered] :=
  ⟨offeredActions_spec .confirmedPaid .ready, by decide⟩

/-- C10. With action type `cancelOrder` the vendor order-action handler
performs no remote update: it toasts an error and returns before the
order-store update call, leaving the selected-order state unchanged; and no
update this handler ever issues moves an order to a cancelled status. -/
theorem cancelOrder_no_remote_update (o : DashOrder) :
    handleOrderAction (some o) (some .cancelOrder) =
      ⟨[("Error", "Cancel feature not implemented in database")], none,
        some o, some .cancelOrder⟩ ∧
    ∀ (so : Option DashOrder) (act : Option DashAction) (oid : String)
      (u : OrderUpdates),
      (handleOrderAction so act).update = some (oid, u) →
        u.order_status ≠ some .cancelled := by
  refine ⟨rfl, ?_⟩
  intro so act oid u h
  match so, act with
  | none, _ => simp [handleOrderAction] at h
  | some o', none => simp [handleOrderAction] at h
  | some o', some a =>
    cases a <;> simp only [handleOrderAction, Option.some.injEq, Prod.mk.injEq] at h
    case confirmPayment => rcases h with ⟨-, rfl⟩; decide
    case markPreparing => rcases h with ⟨-, rfl⟩; decide
    case markReady => rcases h with ⟨-, rfl⟩; decide
    case markDelivered => rcases h with ⟨-, rfl⟩; decide
    case cancelOrder => exact Option.noConfusion h

/-- C10 witness: a concrete selected order with the cancel action, plus a
concrete non-cancel update issued by the handler. -/
theorem cancelOrder_no_remote_update_witness :
    handleOrderAction (some ⟨"ord-1", .awaitingConfirmation, .pending⟩)
        (some .cancelOrder) =
      ⟨[("Error", "Cancel feature not implemented in database")], none,
        some ⟨"ord-1", .awaitingConfirmation, .pending⟩, some .cancelOrder⟩ ∧
    (handleOrderAction (some ⟨"ord-1", .awaitingConfirmation, .pending⟩)
        (some .markPreparing)).update =
      some ("ord-1", ⟨none, some .preparing⟩) ∧
    (OrderUpdates.mk none (some .preparing)).order_status ≠ some .cancelled :=
  ⟨(cancelOrder_no_remote_update ⟨"ord-1", .awaitingConfirmation, .pending⟩).1,
   rfl,
   (cancelOrder_no_remote_update ⟨"ord-1", .awaitingConfirmation, .pending⟩).2
     (some ⟨"ord-1", .awaitingConfirmation, .pending⟩) (some .markPreparing)
     "ord-1" ⟨none, some .preparing⟩ rfl⟩

/-- C8 counterexample to the claim as stated: submitting with terms agreed
but a blank customer name aborts before any remote call with state
unchanged and reports the problem only as a toast notification; the form
renders no inline message next to the name field (the only inline message
that exists at all is the terms hint, absent here because terms are
agreed). -/
theorem submit_blank_name_no_inline_report :
    handleSubmitLocal ⟨false, false, "", "", true,
        ⟨"", "fried-rice", 1, "pre-order", "Brampton", false, "", "e-transfer"⟩⟩ =
      (⟨false, false, "", "", true,
        ⟨"", "fried-rice", 1, "pre-order", "Brampton", false, "", "e-transfer"⟩⟩,
       [("Missing information", "Please enter your name.")], none) ∧
    inlineFieldMessages ⟨false, false, "", "", true,
        ⟨"", "fried-rice", 1, "pre-order", "Brampton", false, "", "e-transfer"⟩⟩ = [] := by
  constructor <;> rfl

/-- C8 (amended). Whenever a required input is missing — terms not agreed,
blank name, no food type, no order type, or delivery with a blank address —
the handler detects it before any remote call and aborts with no side
effect: the state is unchanged, exactly one toast notification is shown,
and no order record is inserted (no inline per-field message exists). -/
theorem submit_validation_aborts (s : OrderFormState)
    (h : s.agreedToTerms = false ∨ trimStr s.formData.name = "" ∨
      s.formData.foodType = "" ∨ s.formData.orderType = "" ∨
      (s.formData.deliverToMe = true ∧ trimStr s.formData.deliveryAddress = "")) :
    ∃ title description,
      handleSubmitLocal s = (s, [(title, description)], none) := by
  unfold handleSubmitLocal
  split_ifs with h1 h2 h3 h4 h5
  · exact ⟨_, _, rfl⟩
  · exact ⟨_, _, rfl⟩
  · exact ⟨_, _, rfl⟩
  · exact ⟨_, _, rfl⟩
  · exact ⟨_, _, rfl⟩
  · tauto

/-- C8 witness: the guard theorem applied to a concrete submission with
terms not agreed. -/
theorem submit_validation_aborts_witness :
    ((⟨false, false, "", "", false,
        ⟨"Ama", "fried-rice", 1, "pre-order", "Brampton", false, "", "e-transfer"⟩⟩ :
      OrderFormState).agreedToTerms = false ∨
      trimStr "Ama" = "" ∨ ("fried-rice" : String) = "" ∨
      ("pre-order" : String) = "" ∨
      (false = true ∧ trimStr "" = "")) ∧
    ∃ title description,
      handleSubmitLocal ⟨false, false, "", "", false,
          ⟨"Ama", "fried-rice", 1, "pre-order", "Brampton", false, "", "e-transfer"⟩⟩ =
        (⟨false, false, "", "", false,
          ⟨"Ama", "fried-rice", 1, "pre-order", "Brampton", false, "", "e-transfer"⟩⟩,
         [(title, description)], none) :=
  ⟨Or.inl rfl, submit_validation_aborts _ (Or.inl rfl)⟩

/-- C9. Every order record the submission flow inserts starts in the
initial state — order status "pending", payment status "awaiting
confirmation" — and its monetary fields are exactly the breakdown computed
from the form, so the stored total equals subtotal + rush fee + delivery
fee. -/
theorem insert_payload_initial (s : OrderFormState) (p : InsertPayload)
    (hp : (handleSubmitLocal s).2.2 = some p) :
    p.order_status = "pending" ∧
    p.payment_status = "awaiting confirmation" ∧
    p.subtotal = (computePrice s.formData.foodType s.formData.packs
      s.formData.orderType s.formData.deliverToMe).subtotal ∧
    p.rush_fee = (computePrice s.formData.foodType s.formData.packs
      s.formData.orderType s.formData.deliverToMe).rushFee ∧
    p.delivery_fee = (computePrice s.formData.foodType s.formData.packs
      s.formData.orderType s.formData.deliverToMe).deliveryFee ∧
    p.total_amount = (computePrice s.formData.foodType s.formData.packs
      s.formData.orderType s.formData.deliverToMe).total ∧
    p.total_amount = p.subtotal + p.rush_fee + p.delivery_fee := by
  unfold handleSubmitLocal at hp
  split_ifs at hp
  cases Option.some.inj hp
  exact ⟨rfl, rfl, rfl, rfl, rfl, rfl, rfl⟩

/-- C9 witness: a concrete valid submission (2 packs of the $25 item,
same-day, with delivery). -/
theorem insert_payload_initial_witness :
    (handleSubmitLocal ⟨false, false, "", "", true,
        ⟨"Ama", "fried-rice", 2, "same-day", "Brampton", true, "12 Main St",
          "e-transfer"⟩⟩).2.2 =
      some (mkInsertPayload
        ⟨"Ama", "fried-rice", 2, "same-day", "Brampton", true, "12 Main St",
          "e-transfer"⟩) ∧
    ((mkInsertPayload
        ⟨"Ama", "fried-rice", 2, "same-day", "Brampton", true, "12 Main St",
          "e-transfer"⟩).order_status = "pending" ∧
      (mkInsertPayload
        ⟨"Ama", "fried-rice", 2, "same-day", "Brampton", true, "12 Main St",
          "e-transfer"⟩).payment_status = "awaiting confirmation" ∧
      (mkInsertPayload
        ⟨"Ama", "fried-rice", 2, "same-day", "Brampton", true, "12 Main St",
          "e-transfer"⟩).subtotal =
        (computePrice "fried-rice" 2 "same-day" true).subtotal ∧
      (mkInsertPayload
        ⟨"Ama", "fried-rice", 2, "same-day", "Brampton", true, "12 Main St",
          "e-transfer"⟩).rush_fee =
        (computePrice "fried-rice" 2 "same-day" true).rushFee ∧
      (mkInsertPayload
        ⟨"Ama", "fried-rice", 2, "same-day", "Brampton", true, "12 Main St",
          "e-transfer"⟩).delivery_fee =
        (computePrice "fried-rice" 2 "same-day" true).deliveryFee ∧
      (mkInsertPayload
        ⟨"Ama", "fried-rice", 2, "same-day", "Brampton", true, "12 Main St",
          "e-transfer"⟩).total_amount =
        (computePrice "fried-rice" 2 "same-day" true).total ∧
      (mkInsertPayload
        ⟨"Ama", "fried-rice", 2, "same-day", "Brampton", true, "12 Main St",
          "e-transfer"⟩).total_amount =
        (mkInsertPayload
          ⟨"Ama", "fried-rice", 2, "same-day", "Brampton", true, "12 Main St",
            "e-transfer"⟩).subtotal +
        (mkInsertPayload
          ⟨"Ama", "fried-rice", 2, "same-day", "Brampton", true, "12 Main St",
            "e-transfer"⟩).rush_fee +
        (mkInsertPayload
          ⟨"Ama", "fried-rice", 2, "same-day", "Brampton", true, "12 Main St",
            "e-transfer"⟩).delivery_fee) :=
  ⟨rfl,
   insert_payload_initial
     ⟨false, false, "", "", true,
       ⟨"Ama", "fried-rice", 2, "same-day", "Brampton", true, "12 Main St",
         "e-transfer"⟩⟩
     (mkInsertPayload
       ⟨"Ama", "fried-rice", 2, "same-day", "Brampton", true, "12 Main St",
         "e-transfer"⟩)
     rfl⟩

end EatsWithBene
